import Mathlib

/-!
Verification development for the UKG employee-record worker
(`src/worker.js`).  The worker answers "is this email an active employee"
by a three-stage SOAP pipeline: authenticate, resolve the email to an SSO
identity record, resolve employment detail, then reconcile and respond.

The JavaScript is embedded shallowly:

* Strings are `List Char` (`Str`).  The regex patterns the code builds are
  all of a few fixed literal shapes (`<Tag>([^<]*)</Tag>`,
  `<Tag[^>]*>([^<]+)</Tag>`, `<Tag>(.*?)</Tag>` with the `s` flag); each
  shape is embedded as a deterministic per-position matcher, and
  JavaScript's leftmost-match rule as a scan over start positions
  (`scanPos`).  The `i` flag is embedded as ASCII lower-casing of both
  sides (`lowerCode`), which is what the flag does on the ASCII tag
  literals the code builds.
* Fallible parsing returns `Option`; JavaScript `null`/`undefined`
  results are `none`.
* The network is an oracle (`World`) giving each outbound SOAP call's
  outcome; `fetch` exceptions and non-2xx statuses are `FetchOutcome`
  constructors.
-/

namespace UKG

/-- Character strings, as lists of characters. -/
abbrev Str := List Char

/-- Shorthand to turn a literal into a `Str`. -/
def ls (s : String) : Str := s.toList

/-- ASCII lower-casing on code points: the canonicalisation the regex `i`
flag performs on the ASCII-only tag literals the worker builds. -/
def lowerCode (n : Nat) : Nat := if 65 ≤ n && n ≤ 90 then n + 32 else n

/-- Character comparison, case-insensitive when `ci` is true. -/
def charCI (ci : Bool) (a b : Char) : Bool :=
  if ci then lowerCode a.toNat == lowerCode b.toNat else a == b

/-- Does `pat` match at the head of `s` (literal match, `ci` selects
case-insensitivity)? -/
def leadMatch (ci : Bool) : Str → Str → Bool
  | [], _ => true
  | _ :: _, [] => false
  | p :: ps, c :: cs => charCI ci p c && leadMatch ci ps cs

/-- First occurrence of literal `pat` (case-sensitive): returns the text
before the occurrence and the text after it.  Embeds the search a
`(.*?)pat` regex tail performs. -/
def splitAtFirstCS (pat : Str) : Str → Option (Str × Str)
  | [] => if pat.isEmpty then some ([], []) else none
  | s@(c :: rest) =>
    if leadMatch false pat s then some ([], s.drop pat.length)
    else match splitAtFirstCS pat rest with
      | some (pre, post) => some (c :: pre, post)
      | none => none

/-- Leftmost-match scan: try the deterministic per-position matcher `m` at
every start position, left to right.  Embeds how the worker's regexes are
applied with `String.prototype.match`. -/
def scanPos (m : Str → Option Str) : Str → Option Str
  | [] => m []
  | s@(_ :: rest) =>
    match m s with
    | some v => some v
    | none => scanPos m rest

/-- Per-position matcher for `openT([^<]*)closeT` (or `([^<]+)` when
`req1` is true): the open literal, a maximal run of non-`<` characters,
then the close literal. -/
def simpleTagAt (ci req1 : Bool) (openT closeT : Str) (s : Str) : Option Str :=
  if leadMatch ci openT s then
    let rest := s.drop openT.length
    let inner := rest.takeWhile (fun c => !(c == '<'))
    if req1 && inner.isEmpty then none
    else if leadMatch ci closeT (rest.drop inner.length) then some inner else none
  else none

/-- Per-position matcher for `openName[^>]*>([^<]+)closeT` (the shape of
the worker's `<Token[^>]*>` pattern). -/
def attrTagAt (ci req1 : Bool) (openName closeT : Str) (s : Str) : Option Str :=
  if leadMatch ci openName s then
    let rest1 := s.drop openName.length
    let attrs := rest1.takeWhile (fun c => !(c == '>'))
    match rest1.drop attrs.length with
    | [] => none
    | _ :: rest =>
      let inner := rest.takeWhile (fun c => !(c == '<'))
      if req1 && inner.isEmpty then none
      else if leadMatch ci closeT (rest.drop inner.length) then some inner else none
  else none

/-- Per-position matcher for `openT(.*?)closeT` with the `s` (dot-all)
flag: the open literal, then the non-greedy span up to the first
occurrence of the close literal. -/
def blockSimpleAt (openT closeT : Str) (s : Str) : Option Str :=
  if leadMatch false openT s then
    match splitAtFirstCS closeT (s.drop openT.length) with
    | some (inner, _) => some inner
    | none => none
  else none

/-- Per-position matcher for `openName[^>]*>(.*?)closeT` with the `s`
flag (result-block patterns such as
`<GetSsoUserByClientUserNameResult[^>]*>`). -/
def blockAttrAt (openName closeT : Str) (s : Str) : Option Str :=
  if leadMatch false openName s then
    let rest1 := s.drop openName.length
    let attrs := rest1.takeWhile (fun c => !(c == '>'))
    match rest1.drop attrs.length with
    | [] => none
    | _ :: rest =>
      match splitAtFirstCS closeT rest with
      | some (inner, _) => some inner
      | none => none
  else none

/-- Does literal `pat` occur anywhere in `s`, case-insensitively? -/
def occursCI (pat : Str) : Str → Bool
  | [] => leadMatch true pat []
  | s@(_ :: rest) => leadMatch true pat s || occursCI pat rest

/-- Whitespace in the sense of JavaScript `String.prototype.trim`. -/
def isJsWhitespace (c : Char) : Bool :=
  c == ' ' || c == '\t' || c == '\n' || c == '\r' || c == '\u000B' || c == '\u000C'
  || c == '\u00A0' || c == '\uFEFF' || c == '\u1680'
  || ('\u2000' ≤ c && c ≤ '\u200A') || c == '\u2028' || c == '\u2029'
  || c == '\u202F' || c == '\u205F' || c == '\u3000'

/-- Embeds JavaScript `String.prototype.trim`. -/
def trimStr (s : Str) : Str :=
  ((s.dropWhile isJsWhitespace).reverse.dropWhile isJsWhitespace).reverse

/-- ASCII upper-casing of one character; embeds what
`charAt(0).toUpperCase()` does on the worker's ASCII field names. -/
def upChar (c : Char) : Char :=
  if 'a' ≤ c && c ≤ 'z' then Char.ofNat (c.toNat - 32) else c

/-- Embeds `fieldName.charAt(0).toUpperCase() + fieldName.slice(1)`
(worker.js:585, 704). -/
def capitalize : Str → Str
  | [] => []
  | c :: cs => upChar c :: cs

/-- Embeds `extractFieldValue` (worker.js:584-598 and its identical copy
at 703-717): capitalise the field name, try
`<b:Cap>([^<]*)</b:Cap>` case-insensitively, then the bare
`<Cap>([^<]*)</Cap>`; on a match return `match[1].trim()` when the raw
group is non-empty, otherwise the absent value.  (The copy at 703-717
returns `''` instead of `null` for absent; both call sites only test the
result for truthiness, so a single `Option`-valued embedding covers
both, with `none` for `null`/`''`-absent.) -/
def extractFieldValue (data fieldName : Str) : Option Str :=
  let cap := capitalize fieldName
  let m :=
    match scanPos (simpleTagAt true false (ls "<b:" ++ cap ++ ls ">") (ls "</b:" ++ cap ++ ls ">")) data with
    | some v => some v
    | none => scanPos (simpleTagAt true false (ls "<" ++ cap ++ ls ">") (ls "</" ++ cap ++ ls ">")) data
  match m with
  | some v => if v.isEmpty then none else some (trimStr v)
  | none => none

/-- The SSO-parser variant of `extractFieldValue` (worker.js:703-717),
which yields `''` when absent; used where the code stores the value
directly. -/
def extractFieldValueS (data fieldName : Str) : Str :=
  match extractFieldValue data fieldName with
  | some v => v
  | none => []

/-- JavaScript `a || b` on strings: `b` when `a` is empty. -/
def jsOr (a b : Str) : Str := if a.isEmpty then b else a

/-- Embeds the `Success`-flag extraction both parsers perform
(worker.js:520-523, 681-684): `<b:Success>([^<]+)</b:Success>`
case-sensitively, then the bare form. -/
def successFlagOf (block : Str) : Option Str :=
  match scanPos (simpleTagAt false true (ls "<b:Success>") (ls "</b:Success>")) block with
  | some v => some v
  | none => scanPos (simpleTagAt false true (ls "<Success>") (ls "</Success>")) block

/-- Two-form block extraction where the `b:`-prefixed pattern is a plain
literal and the bare pattern allows attributes (`[^>]*`), the shape of
the result-block lookups (worker.js:503-507, 669-672). -/
def blockPrefOrAttr (name : String) (xml : Str) : Option Str :=
  match scanPos (blockSimpleAt (ls "<b:" ++ ls name ++ ls ">") (ls "</b:" ++ ls name ++ ls ">")) xml with
  | some v => some v
  | none => scanPos (blockAttrAt (ls "<" ++ ls name) (ls "</" ++ ls name ++ ls ">")) xml

/-- Two-form block extraction where both patterns are plain literals, the
shape of the `Results` / `EmploymentInformation` lookups
(worker.js:533-535, 549-551, 691-693). -/
def blockPrefOrBare (name : String) (xml : Str) : Option Str :=
  match scanPos (blockSimpleAt (ls "<b:" ++ ls name ++ ls ">") (ls "</b:" ++ ls name ++ ls ">")) xml with
  | some v => some v
  | none => scanPos (blockSimpleAt (ls "<" ++ ls name ++ ls ">") (ls "</" ++ ls name ++ ls ">")) xml

/-- Two-form block extraction where both patterns allow attributes, the
shape of the `EmployeeIdentifier` lookup (worker.js:725-728). -/
def blockAttrBoth (name : String) (xml : Str) : Option Str :=
  match scanPos (blockAttrAt (ls "<b:" ++ ls name) (ls "</b:" ++ ls name ++ ls ">")) xml with
  | some v => some v
  | none => scanPos (blockAttrAt (ls "<" ++ ls name) (ls "</" ++ ls name ++ ls ">")) xml

/-- The fixed employment field-name list `patternNames`
(worker.js:574-581). -/
def patternNames : List Str :=
  [ls "employmentStatus", ls "status", ls "employeeStatus", ls "employeeStatusCode", ls "statusCode",
   ls "hireDate", ls "startDate", ls "employmentStartDate", ls "terminationDate", ls "endDate",
   ls "employmentEndDate", ls "lastWorkDate",
   ls "jobTitle", ls "title", ls "position", ls "department", ls "departmentCode",
   ls "employmentType", ls "employeeType", ls "workerType",
   ls "isActive", ls "active",
   ls "employeeId", ls "employeeNumber", ls "companyCode"]

/-- The `fields` object built by the extraction loop (worker.js:600-612):
one entry per `patternNames` member whose extracted value is a non-empty
string, in loop order. -/
def employmentFieldsOf (employmentData : Str) : List (Str × Str) :=
  patternNames.foldl
    (fun acc f =>
      match extractFieldValue employmentData f with
      | some v => if v.isEmpty then acc else acc ++ [(f, v)]
      | none => acc)
    []

/-- The fallback direct search for `EmploymentStatus` over the whole
response (worker.js:615-627): `<b:EmploymentStatus>([^<]*)</b:EmploymentStatus>`
case-insensitively, then the bare form; the value is stored (trimmed)
only when the raw group is non-empty. -/
def directStatusSearch (xmlText : Str) (fields : List (Str × Str)) : List (Str × Str) :=
  match (fields.lookup (ls "employmentStatus")) with
  | some _ => fields
  | none =>
    let m :=
      match scanPos (simpleTagAt true false (ls "<b:EmploymentStatus>") (ls "</b:EmploymentStatus>")) xmlText with
      | some v => some v
      | none => scanPos (simpleTagAt true false (ls "<EmploymentStatus>") (ls "</EmploymentStatus>")) xmlText
    match m with
    | some v => if v.isEmpty then fields else fields ++ [(ls "employmentStatus", trimStr v)]
    | none => fields

/-- Modelled from the spec: `extractAllFieldsFromBlock` is called at
worker.js:631 (debug mode only) but is defined only in the repository's
older source variant, which is absent from `src/`.  Per spec section 4.1
the extraction layer performs global, tolerant, non-overlapping scans
that never throw; accordingly the helper is modelled as a total scan
collecting every `<name>value</name>` pair of a block in document
order. -/
def extractAllFieldsFromBlock (block : Str) : List (Str × Str) :=
  go block.length block
where
  go : Nat → Str → List (Str × Str)
    | 0, _ => []
    | _, [] => []
    | fuel + 1, s@(_ :: rest) =>
      match s with
      | '<' :: t =>
        let name := t.takeWhile (fun c => !(c == '>') && !(c == '<') && !(c == '/'))
        match t.drop name.length with
        | '>' :: u =>
          let inner := u.takeWhile (fun c => !(c == '<'))
          let after := u.drop inner.length
          if !name.isEmpty && leadMatch false (ls "</" ++ name ++ ls ">") after then
            (name, inner) :: go fuel (after.drop (name.length + 3))
          else go fuel rest
        | _ => go fuel rest
      | _ => go fuel rest

/-- The employment parse steps shared by debug and non-debug mode
(worker.js:498-627 minus the debug-only additions): result block,
`Success`-flag check (absent flag falls through), `Results` block,
`EmploymentInformation` block, field loop, direct status fallback.
Returns the carved-out employment block together with the extracted
field map. -/
def parseEmploymentCore (xmlText : Str) : Option (Str × List (Str × Str)) :=
  match blockPrefOrAttr "GetEmploymentInformationByEmployeeIdentifierResult" xmlText with
  | none => none
  | some resultBlock =>
    let cont : Option (Str × List (Str × Str)) :=
      match blockPrefOrBare "Results" resultBlock with
      | none => none
      | some results =>
        match blockPrefOrBare "EmploymentInformation" results with
        | none => none
        | some employmentData =>
          some (employmentData, directStatusSearch xmlText (employmentFieldsOf employmentData))
    match successFlagOf resultBlock with
    | some v => if v = ls "true" then cont else none
    | none => cont

/-- The employment-detail object `parseEmploymentInformationDetailsFromXML`
returns (worker.js:649-653): the extracted field map, the debug-only
extras (`allDetectedFields`, `rawEmploymentData`, worker.js:629-633) and
the raw response. -/
structure ParsedEmployment where
  fieldsMap : List (Str × Str)
  allDetectedFields : Option (List (Str × Str)) := none
  rawEmploymentData : Option Str := none
  rawResponse : Str := []
deriving DecidableEq, Repr

/-- Embeds `parseEmploymentInformationDetailsFromXML` (worker.js:498-659).
In debug mode the code additionally stores `allDetectedFields` and
`rawEmploymentData`; the extracted field map is computed identically in
both modes. -/
def parseEmploymentInformationDetailsFromXML (xmlText : Str) (debugMode : Bool) :
    Option ParsedEmployment :=
  (parseEmploymentCore xmlText).map fun pr =>
    { fieldsMap := pr.2,
      allDetectedFields := if debugMode then some (extractAllFieldsFromBlock pr.1) else none,
      rawEmploymentData :=
        if debugMode then some (ls "<EmploymentInformation>" ++ pr.1 ++ ls "</EmploymentInformation>")
        else none,
      rawResponse := xmlText }

/-- An SSO identity record as built by `parseSingleUserFromXML`
(worker.js:754-762). -/
structure SsoUser where
  employeeNumber : Str
  companyCode : Str
  firstName : Str
  lastName : Str
  status : Str
  clientUserName : Str
  ultiProUserName : Str
deriving DecidableEq, Repr

/-- Embeds `parseSingleUserFromXML` (worker.js:664-771): result block,
`Success`-flag check (absent flag falls through), `Results` block, field
extraction with `''` defaults and `||` fallback chains, nested
`EmployeeIdentifier` block for company code and employee number. -/
def parseSingleUserFromXML (xmlText emailToSearch : Str) : Option SsoUser :=
  match blockPrefOrAttr "GetSsoUserByClientUserNameResult" xmlText with
  | none => none
  | some resultBlock =>
    let cont : Option SsoUser :=
      match blockPrefOrBare "Results" resultBlock with
      | none => none
      | some ssoUserData =>
        let clientUserName := extractFieldValueS ssoUserData (ls "clientUserName")
        let ultiProUserName := extractFieldValueS ssoUserData (ls "ultiProUserName")
        let status := extractFieldValueS ssoUserData (ls "status")
        let empId := blockAttrBoth "EmployeeIdentifier" ssoUserData
        let companyCode := match empId with
          | some b => extractFieldValueS b (ls "companyCode")
          | none => []
        let employeeNumber := match empId with
          | some b => extractFieldValueS b (ls "employeeNumber")
          | none => []
        let firstName :=
          jsOr (extractFieldValueS ssoUserData (ls "firstName"))
            (jsOr (extractFieldValueS ssoUserData (ls "givenName"))
              (jsOr (extractFieldValueS ssoUserData (ls "firstNm")) []))
        let lastName :=
          jsOr (extractFieldValueS ssoUserData (ls "lastName"))
            (jsOr (extractFieldValueS ssoUserData (ls "surname"))
              (jsOr (extractFieldValueS ssoUserData (ls "lastNm"))
                (jsOr (extractFieldValueS ssoUserData (ls "familyName")) [])))
        some { employeeNumber := employeeNumber,
               companyCode := companyCode,
               firstName := firstName,
               lastName := lastName,
               status := jsOr status (ls "1"),
               clientUserName := jsOr clientUserName emailToSearch,
               ultiProUserName := jsOr ultiProUserName emailToSearch }
    match successFlagOf resultBlock with
    | some v => if v = ls "true" then cont else none
    | none => cont

/-- Embeds the token extraction of `authenticateUKG` (worker.js:318-321):
`<Token[^>]*>([^<]+)</Token>`, case-sensitive, first match. -/
def tokenOf (responseText : Str) : Option Str :=
  scanPos (attrTagAt false true (ls "<Token") (ls "</Token>")) responseText

/-- Outcome of one outbound `fetch`: a thrown network error, or an HTTP
response with its `ok` flag and body text. -/
inductive FetchOutcome where
  | netErr
  | resp (ok : Bool) (body : Str)

/-- The upstream SOAP backend as an oracle: the response each of the
worker's three outbound calls would receive.  The employment call is
keyed by the company code and employee number it is invoked with. -/
structure World where
  login : FetchOutcome
  sso : FetchOutcome
  employment : Str → Str → FetchOutcome

/-- The worker's environment bindings (worker.js:4-11).  `none` is an
unset variable; `some []` is set-but-empty, which the validation loop's
truthiness test also rejects. -/
structure Env where
  ukgCustomerApiKey : Option Str
  ukgUserApiKey : Option Str
  ukgUsername : Option Str
  ukgPassword : Option Str
  ukgBaseUrl : Option Str
  workerApiKey : Option Str

/-- An inbound request after the method-specific parameter parsing
(worker.js:17, 29-40): the API key header, the email parameter and the
debug flag. -/
structure Req where
  apiKey : Option Str
  email : Option Str
  debug : Bool

/-- JavaScript truthiness of an optional string. -/
def strTruthy : Option Str → Bool
  | some s => !s.isEmpty
  | none => false

/-- Embeds the API-key gate (worker.js:17-27):
`!apiKey || apiKey !== env.WORKER_API_KEY`. -/
def apiKeyValid (e : Env) (req : Req) : Bool :=
  match req.apiKey with
  | none => false
  | some k => !k.isEmpty && (e.workerApiKey == some k)

/-- Embeds the environment-validation loop (worker.js:54-64): the first
variable of `requiredVars`, in order, whose value is falsy. -/
def firstMissingVar (e : Env) : Option Str :=
  if !strTruthy e.ukgCustomerApiKey then some (ls "UKG_CUSTOMER_API_KEY")
  else if !strTruthy e.ukgUserApiKey then some (ls "UKG_USER_API_KEY")
  else if !strTruthy e.ukgUsername then some (ls "UKG_USERNAME")
  else if !strTruthy e.ukgPassword then some (ls "UKG_PASSWORD")
  else if !strTruthy e.ukgBaseUrl then some (ls "UKG_BASE_URL")
  else if !strTruthy e.workerApiKey then some (ls "WORKER_API_KEY")
  else none

/-- Embeds `authenticateUKG` (worker.js:279-329): `null` on network
failure or a non-ok status, otherwise the first `Token` match. -/
def authenticateUKG (w : World) : Option Str :=
  match w.login with
  | .netErr => none
  | .resp false _ => none
  | .resp true body => tokenOf body

/-- The user record `findUserByEmail` returns: the parsed SSO user, plus
the raw response text that debug mode attaches as `rawSSOResponse`
(worker.js:386-389). -/
def findUserCore (w : World) (emailToSearch : Str) : Option (SsoUser × Str) :=
  match w.sso with
  | .netErr => none
  | .resp false _ => none
  | .resp true body =>
    match parseSingleUserFromXML body emailToSearch with
    | none => none
    | some u => some (u, body)

/-- Embeds `findUserByEmail` (worker.js:334-396): `null` on network
failure, non-ok status, or a failed parse; debug mode additionally keeps
the raw response on the record. -/
def findUserByEmail (w : World) (emailToSearch : Str) (debugMode : Bool) :
    Option (SsoUser × Option Str) :=
  (findUserCore w emailToSearch).map fun p =>
    (p.1, if debugMode then some p.2 else none)

/-- The value stored in `record.employmentDetails`: the parsed detail
object (with `fullResponse` attached in debug mode, worker.js:464-467),
or one of the two debug-only placeholder objects for a failed lookup
(worker.js:471-478, 484-491); neither placeholder carries an
`employmentStatus` property. -/
inductive EmploymentDetails where
  | parsed (p : ParsedEmployment) (fullResponse : Option Str)
  | noInfo (rawResponse : Str)
  | errMarker
deriving DecidableEq, Repr

/-- Property access `details.fieldName` on an employment-details value:
a field of the parsed map, `undefined` on the placeholders. -/
def EmploymentDetails.field : EmploymentDetails → Str → Option Str
  | .parsed p _, name => p.fieldsMap.lookup name
  | .noInfo _, _ => none
  | .errMarker, _ => none

/-- Embeds `getEmploymentInformationByEmployeeIdentifier`
(worker.js:403-493): `null` on a non-ok HTTP status; on a thrown error,
`null` or the debug error marker; on a success response, the parse
result (plus `fullResponse` in debug mode) or, for a failed parse,
`null` or the debug `noEmploymentInfoFound` placeholder. -/
def getEmploymentInformationByEmployeeIdentifier
    (w : World) (companyCode employeeNumber : Str) (debugMode : Bool) :
    Option EmploymentDetails :=
  match w.employment companyCode employeeNumber with
  | .netErr => if debugMode then some .errMarker else none
  | .resp false _ => none
  | .resp true body =>
    match parseEmploymentInformationDetailsFromXML body debugMode with
    | some p => some (.parsed p (if debugMode then some body else none))
    | none => if debugMode then some (.noInfo body) else none

/-- One entry of `userRecords` after the employment-enrichment loop
(worker.js:88-106): the SSO record, the debug-only raw SSO response, and
the optional employment details. -/
structure URecord where
  user : SsoUser
  rawSSOResponse : Option Str := none
  employmentDetails : Option EmploymentDetails := none
deriving DecidableEq, Repr

/-- Embeds the active-record predicate of the filter (worker.js:109-112):
`record.employmentDetails && record.employmentDetails.employmentStatus === 'A'`. -/
def isActive (r : URecord) : Bool :=
  match r.employmentDetails with
  | some d => d.field (ls "employmentStatus") == some (ls "A")
  | none => false

/-- Embeds `userRecords.filter(...)` (worker.js:109-112). -/
def activeRecords (rs : List URecord) : List URecord :=
  rs.filter isActive

/-- Embeds the primary-record selection (worker.js:117-120):
`activeRecords[activeRecords.length - 1]` when the filter kept anything. -/
def primaryRecord (rs : List URecord) : Option URecord :=
  (activeRecords rs).getLast?

/-- The bookkeeping counts stored on `_debugAllRecordsInfo`
(worker.js:137-139). -/
structure RecordsInfo where
  totalRecordCount : Nat
  activeRecordCount : Nat
deriving DecidableEq, Repr

/-- Embeds the bookkeeping attachment (worker.js:137-139).  The
per-record summary arrays also stored there (worker.js:141-162) are
observability-only and are not consulted by any branch, so they are not
modelled. -/
def recordsInfoOf (rs : List URecord) : RecordsInfo :=
  { totalRecordCount := rs.length, activeRecordCount := (activeRecords rs).length }

/-- The JSON response body, one optional field per property any branch of
the worker sets, plus the HTTP status. -/
structure Resp where
  status : Nat
  success : Option Bool := none
  error : Option Str := none
  details : Option Str := none
  totalRecords : Option Nat := none
  email : Option Str := none
  employeeNumber : Option Str := none
  companyCode : Option Str := none
  firstName : Option Str := none
  lastName : Option Str := none
  userStatus : Option Str := none
  employmentStatus : Option Str := none
  employmentStatusReason : Option Str := none
  dataSource : Option Str := none
  hireDate : Option Str := none
  jobTitle : Option Str := none
  note : Option Str := none
  debugModeEnabled : Bool := false
  rawSSOResponse : Option Str := none
  debugEmploymentDetails : Option EmploymentDetails := none
  debugRecordsInfo : Option RecordsInfo := none
deriving DecidableEq, Repr

/-- Decimal rendering of a count, for the interpolated note strings. -/
def natStr (n : Nat) : Str := (Nat.repr n).toList

/-- Embeds the record-processing block (worker.js:83-261, reached with
`userInfo` truthy): filter for active records, 404 when none, otherwise
the 200 response built from the last active record, with the debug-mode
additions of worker.js:216-245.  The summary-array fields
`debugAllRecords` / `debugActiveRecords` / `debugAllEmploymentDetails`
(worker.js:228-243) are observability projections of data already
modelled and are represented by `debugRecordsInfo` and
`debugEmploymentDetails`. -/
def respondWithRecords (records : List URecord) (emailToSearch : Str) (debugMode : Bool) : Resp :=
  let info := recordsInfoOf records
  match primaryRecord records with
  | none =>
    { status := 404, success := some false,
      error := some (ls "No active employee records found"),
      totalRecords := some records.length,
      email := some emailToSearch,
      details := some (ls "All employee records found are terminated or inactive") }
  | some primary =>
    let base : Resp :=
      { status := 200, success := some true,
        employeeNumber := some primary.user.employeeNumber,
        companyCode := some primary.user.companyCode,
        firstName := some primary.user.firstName,
        lastName := some primary.user.lastName,
        userStatus := some primary.user.status,
        email := some emailToSearch }
    let withEmp : Resp :=
      match primary.employmentDetails with
      | some d =>
        { base with
          employmentStatus := some (ls "ACTIVE"),
          employmentStatusReason := some (ls "Employment status: A (Active)"),
          dataSource := some (ls "SSO + EmployeeEmploymentInformation Services"),
          hireDate := d.field (ls "hireDate"),
          jobTitle := d.field (ls "jobTitle"),
          note :=
            if info.totalRecordCount > 1 then
              some (ls "Selected last active record from " ++ natStr info.activeRecordCount
                ++ ls " active records out of " ++ natStr info.totalRecordCount
                ++ ls " total records found")
            else none }
      | none =>
        { base with
          employmentStatus := some (ls "Active (assumed - no employment details available)"),
          dataSource := some (ls "SSO Service Only"),
          note :=
            if info.totalRecordCount > 1 then
              some (ls "Selected record from " ++ natStr info.totalRecordCount
                ++ ls " total records found (no employment status available)")
            else none }
    if debugMode then
      { withEmp with
        debugModeEnabled := true,
        rawSSOResponse := primary.rawSSOResponse,
        debugEmploymentDetails := primary.employmentDetails,
        debugRecordsInfo := some info }
    else withEmp

/-- Embeds the whole `fetch` handler (worker.js:14-273) over the upstream
oracle `w`: API-key gate, email-parameter check, environment validation,
authentication, SSO lookup, employment enrichment of the single record
the exact lookup yields, then `respondWithRecords`.  Two notes tied to
the source: the auth-failure branch (worker.js:69-75) spreads the
undefined identifier `corsHeaders`, so it throws and the outer catch
returns the 500 body modelled here; and a `findUserByEmail` result is
always a single object, so `userRecords` is the one-element list. -/
def fetchHandler (e : Env) (req : Req) (w : World) : Resp :=
  if !apiKeyValid e req then
    { status := 401, error := some (ls "Unauthorized - Invalid or missing API key") }
  else
    match req.email with
    | none => { status := 400, error := some (ls "Email parameter is required") }
    | some emailToSearch =>
      if emailToSearch.isEmpty then
        { status := 400, error := some (ls "Email parameter is required") }
      else
        match firstMissingVar e with
        | some v =>
          { status := 500, error := some (ls "Missing environment variable: " ++ v) }
        | none =>
          match authenticateUKG w with
          | none =>
            { status := 500, error := some (ls "Internal server error"),
              details := some (ls "corsHeaders is not defined") }
          | some _token =>
            match findUserByEmail w emailToSearch req.debug with
            | none =>
              { status := 404, success := some false,
                error := some (ls "User not found"), email := some emailToSearch }
            | some (u, raw) =>
              let record : URecord :=
                { user := u, rawSSOResponse := raw,
                  employmentDetails :=
                    getEmploymentInformationByEmployeeIdentifier
                      w u.companyCode u.employeeNumber req.debug }
              respondWithRecords [record] emailToSearch req.debug

/-! ## Facts about the character-level matching -/

/-- ASCII letters, the alphabet of the worker's tag names. -/
def asciiAlpha (c : Char) : Bool := ('A' ≤ c && c ≤ 'Z') || ('a' ≤ c && c ≤ 'z')

/-- Lower-cased code points of a string, the case-insensitive comparison
key. -/
def lcn (s : Str) : List Nat := s.map (fun c => lowerCode c.toNat)

/-- An XML element document: `<pfx tag>inner</pfx tag>`. -/
def tagDoc (pfx tag inner : Str) : Str :=
  ls "<" ++ pfx ++ tag ++ ls ">" ++ inner ++ ls "</" ++ pfx ++ tag ++ ls ">"

/-- The matcher fails at every start position of `s`. -/
def failsEverywhere (p s : Str) : Prop :=
  ∀ n : Nat, leadMatch true p (s.drop n) = false


/-! ## Sample data used by the witnesses -/

/-- A sample identity record with the given employee number and company
code. -/
def sampleUser (en cc : String) : SsoUser :=
  { employeeNumber := ls en, companyCode := ls cc, firstName := [], lastName := [],
    status := ls "1", clientUserName := [], ultiProUserName := [] }

/-- A sample enriched record whose employment detail carries the given
raw employment status. -/
def sampleRec (en cc st : String) : URecord :=
  { user := sampleUser en cc,
    employmentDetails := some (.parsed { fieldsMap := [(ls "employmentStatus", ls st)] } none) }

/-- The spec's reconciler scenario: `[A(inactive), B(active), C(active),
D(inactive)]`. -/
def demoRecords : List URecord :=
  [sampleRec "A" "C1" "T", sampleRec "B" "C2" "A",
   sampleRec "C" "C3" "A", sampleRec "D" "C4" "T"]

/-- Two resolved identities, both terminated. -/
def demoInactive : List URecord :=
  [sampleRec "1" "X" "T", sampleRec "2" "Y" "T"]

/-- A record that never received employment detail. -/
def plainRec : URecord := { user := sampleUser "E" "Z" }

/-- A malformed markup fragment: unterminated and nested brackets, no
complete open tag for any field. -/
def malformedDoc : Str := ls "<<EmploymentStatus A=> <b:status <employmentStatus"

/-- An employment response whose result block carries no `Success`
element at all, yet contains a full employment payload. -/
def empNoSuccessDoc : Str := ls "<GetEmploymentInformationByEmployeeIdentifierResult><Results><EmploymentInformation><EmploymentStatus>A</EmploymentStatus></EmploymentInformation></Results></GetEmploymentInformationByEmployeeIdentifierResult>"

/-- An employment response whose result block says `Success = false`. -/
def empFalseDoc : Str := ls "<GetEmploymentInformationByEmployeeIdentifierResult><Success>false</Success></GetEmploymentInformationByEmployeeIdentifierResult>"

/-- An SSO response whose result block says `Success = false`. -/
def ssoFalseDoc : Str := ls "<GetSsoUserByClientUserNameResult><Success>false</Success></GetSsoUserByClientUserNameResult>"

/-! ## Sample environment, request and worlds for the handler claims -/

/-- A fully-populated environment. -/
def demoEnv : Env :=
  { ukgCustomerApiKey := some (ls "ck"), ukgUserApiKey := some (ls "uk"),
    ukgUsername := some (ls "un"), ukgPassword := some (ls "pw"),
    ukgBaseUrl := some (ls "http://x"), workerApiKey := some (ls "k") }

/-- A valid request without debug mode. -/
def demoReq : Req := { apiKey := some (ls "k"), email := some (ls "j@x.com"), debug := false }

/-- An SSO response resolving the email to employee 100624 in company
BPML. -/
def ssoBody : Str := ls "<GetSsoUserByClientUserNameResult><Success>true</Success><Results><EmployeeIdentifier><CompanyCode>BPML</CompanyCode><EmployeeNumber>100624</EmployeeNumber></EmployeeIdentifier></Results></GetSsoUserByClientUserNameResult>"

/-- An employment response with status "A". -/
def empBodyA : Str := ls "<GetEmploymentInformationByEmployeeIdentifierResult><Success>true</Success><Results><EmploymentInformation><EmploymentStatus>A</EmploymentStatus></EmploymentInformation></Results></GetEmploymentInformationByEmployeeIdentifierResult>"

/-- A world in which every call succeeds and the employee is active. -/
def demoWorld : World :=
  { login := .resp true (ls "<Token>t</Token>"), sso := .resp true ssoBody,
    employment := fun _ _ => .resp true empBodyA }

/-- A world whose SSO response contains no result block. -/
def demoWorldNotFound : World :=
  { demoWorld with sso := .resp true (ls "no result") }


/-- An environment lacking the backend base URL. -/
def demoEnvNoBase : Env := { demoEnv with ukgBaseUrl := none }



/-! ## Helper lemmas about the reconciliation step -/

/-- The canonical record always comes from the `activeRecords` filter. -/
theorem isActive_of_primary {rs : List URecord} {r : URecord}
    (hp : primaryRecord rs = some r) : isActive r = true :=
  List.of_mem_filter (List.mem_of_mem_getLast? hp)

/-- An active record carries employment detail with raw status "A". -/
theorem details_of_active {r : URecord} (h : isActive r = true) :
    ∃ d, r.employmentDetails = some d
      ∧ d.field (ls "employmentStatus") = some (ls "A") := by
  rw [isActive] at h
  cases hd : r.employmentDetails with
  | none => rw [hd] at h; cases h
  | some d =>
    rw [hd] at h
    exact ⟨d, rfl, by simpa using h⟩


theorem charToNat_inj {a b : Char} (h : a.toNat = b.toNat) : a = b :=
  Char.eq_of_val_eq (UInt32.ext h)

theorem lowerCode_eq_sixty {n : Nat} (h : lowerCode n = 60) : n = 60 := by
  rw [lowerCode] at h
  by_cases hc : (65 ≤ n && n ≤ 90) = true
  · rw [if_pos hc] at h
    simp only [Bool.and_eq_true, decide_eq_true_eq] at hc
    omega
  · rwa [if_neg hc] at h

theorem asciiAlpha_toNat {c : Char} (h : asciiAlpha c = true) :
    (65 ≤ c.toNat ∧ c.toNat ≤ 90) ∨ (97 ≤ c.toNat ∧ c.toNat ≤ 122) := by
  rw [asciiAlpha] at h
  simp only [Bool.or_eq_true, Bool.and_eq_true, decide_eq_true_eq] at h
  exact h

theorem lowerCode_alpha {c : Char} (h : asciiAlpha c = true) :
    97 ≤ lowerCode c.toNat ∧ lowerCode c.toNat ≤ 122 := by
  rcases asciiAlpha_toNat h with hr | hr <;>
  · rw [lowerCode]
    by_cases hc : (65 ≤ c.toNat && c.toNat ≤ 90) = true
    · rw [if_pos hc]; simp only [Bool.and_eq_true, decide_eq_true_eq] at hc; omega
    · rw [if_neg hc]
      simp only [Bool.and_eq_true, decide_eq_true_eq, not_and_or, not_le] at hc
      omega

theorem charCI_lt_false {c : Char} (h : c ≠ '<') : charCI true '<' c = false := by
  rw [charCI, if_pos rfl, beq_eq_false_iff_ne]
  have hlt : Char.toNat '<' = 60 := rfl
  intro he
  rw [hlt] at he
  have h2 : lowerCode c.toNat = 60 := he.symm.trans rfl
  exact h (charToNat_inj ((lowerCode_eq_sixty h2).trans hlt.symm))

theorem charCI_colon_alpha {c : Char} (h : asciiAlpha c = true) :
    charCI true ':' c = false := by
  rw [charCI, if_pos rfl, beq_eq_false_iff_ne]
  have := lowerCode_alpha h
  intro he
  rw [show lowerCode (Char.toNat ':') = 58 from rfl] at he
  omega

theorem asciiAlpha_ne_lt {c : Char} (h : asciiAlpha c = true) : c ≠ '<' := by
  intro he
  rw [he] at h
  exact absurd h (by decide)

/-! ## Facts about the leftmost-match scan -/

theorem leadMatch_nil_false {p : Str} (hp : p ≠ []) : leadMatch true p [] = false := by
  cases p with
  | nil => exact absurd rfl hp
  | cons c cs => rfl

theorem leadMatch_head_false {q s : Str} {c : Char} (hc : charCI true '<' c = false) :
    leadMatch true ('<' :: q) (c :: s) = false := by
  simp [leadMatch, hc]

theorem leadMatch_of_lcn {p d : Str} (h : lcn p = lcn d) (t : Str) :
    leadMatch true p (d ++ t) = true := by
  induction p generalizing d with
  | nil => rfl
  | cons a ps ih =>
    cases d with
    | nil => simp [lcn] at h
    | cons b ds =>
      simp only [lcn, List.map_cons, List.cons.injEq] at h
      simp only [List.cons_append, leadMatch, charCI, if_pos rfl, h.1,
        beq_self_eq_true, Bool.true_and]
      exact ih (by simpa [lcn] using h.2)

theorem leadMatch_refl_append (ci : Bool) (p t : Str) : leadMatch ci p (p ++ t) = true := by
  induction p with
  | nil => rfl
  | cons c cs ih =>
    cases ci <;> simp [List.cons_append, leadMatch, ih, charCI]

theorem fe_nil {p : Str} (hp : p ≠ []) : failsEverywhere p [] := fun n => by
  rw [List.drop_nil]; exact leadMatch_nil_false hp

theorem fe_cons {p s : Str} {c : Char} (h0 : leadMatch true p (c :: s) = false)
    (h : failsEverywhere p s) : failsEverywhere p (c :: s) := by
  intro n
  cases n with
  | zero => simpa using h0
  | succ n => rw [List.drop_succ_cons]; exact h n

theorem fe_append_nonlt {p q : Str} (hp : p = '<' :: q) {a : Str}
    (ha : ∀ c ∈ a, c ≠ '<') {b : Str} (hb : failsEverywhere p b) :
    failsEverywhere p (a ++ b) := by
  induction a with
  | nil => simpa using hb
  | cons c cs ih =>
    rw [List.cons_append]
    refine fe_cons ?_ (ih fun x hx => ha x (List.mem_cons_of_mem _ hx))
    rw [hp]
    exact leadMatch_head_false (charCI_lt_false (ha c (List.mem_cons_self c cs)))

theorem fe_of_occursCI_false {p : Str} : ∀ {s : Str}, occursCI p s = false →
    failsEverywhere p s := by
  intro s
  induction s with
  | nil =>
    intro h n
    rw [List.drop_nil]
    simpa [occursCI] using h
  | cons c cs ih =>
    intro h
    rw [occursCI, Bool.or_eq_false_iff] at h
    exact fe_cons h.1 (ih h.2)

theorem scanPos_of_some {m : Str → Option Str} {s v : Str} (h : m s = some v) :
    scanPos m s = some v := by
  cases s <;> simp [scanPos, h]

theorem scanPos_none {m : Str → Option Str} : ∀ {s : Str},
    (∀ n : Nat, m (s.drop n) = none) → scanPos m s = none := by
  intro s
  induction s with
  | nil =>
    intro h
    simpa [scanPos] using h 0
  | cons c cs ih =>
    intro h
    have h0 : m (c :: cs) = none := by simpa using h 0
    rw [scanPos, h0]
    exact ih fun n => by simpa [List.drop_succ_cons] using h (n + 1)

theorem simpleTagAt_none_of_lead {req1 : Bool} {o c s : Str}
    (h : leadMatch true o s = false) : simpleTagAt true req1 o c s = none := by
  simp [simpleTagAt, h]

theorem scanPos_simple_none {req1 : Bool} {o cl s : Str} (hfe : failsEverywhere o s) :
    scanPos (simpleTagAt true req1 o cl) s = none :=
  scanPos_none fun n => simpleTagAt_none_of_lead (hfe n)

theorem takeWhile_append_stop {p : Char → Bool} {a : Str} (ha : ∀ c ∈ a, p c = true)
    {b0 : Char} (hb : p b0 = false) (bs : Str) :
    (a ++ b0 :: bs).takeWhile p = a := by
  induction a with
  | nil => simp [List.takeWhile_cons, hb]
  | cons c cs ih =>
    simp [List.takeWhile_cons, ha c (List.mem_cons_self c cs),
      ih fun x hx => ha x (List.mem_cons_of_mem _ hx)]

theorem simpleTagAt_hit (req1 : Bool) {po pc docO : Str} (inner : Str) {clq : Str}
    (tail : Str)
    (hlo : leadMatch true po (docO ++ (inner ++ ('<' :: clq ++ tail))) = true)
    (hlen : po.length = docO.length)
    (hin : ∀ c ∈ inner, c ≠ '<')
    (hlc : leadMatch true pc ('<' :: clq ++ tail) = true) :
    simpleTagAt true req1 po pc (docO ++ (inner ++ ('<' :: clq ++ tail)))
      = if req1 && inner.isEmpty then none else some inner := by
  have hrest : (docO ++ (inner ++ ('<' :: clq ++ tail))).drop po.length
      = inner ++ ('<' :: clq ++ tail) := by
    rw [hlen]; exact List.drop_left _ _
  have htake : (inner ++ ('<' :: clq ++ tail)).takeWhile (fun c => !(c == '<')) = inner := by
    refine takeWhile_append_stop (fun c hc => ?_) (by simp) _
    simp [hin c hc]
  have hdrop : (inner ++ ('<' :: clq ++ tail)).drop inner.length = '<' :: clq ++ tail :=
    List.drop_left _ _
  rw [simpleTagAt, hlo]
  simp only [if_true, hrest, htake, hdrop, hlc]

/-! ## Shape lemmas for the tag patterns and documents -/

theorem bOpen_decomp (cap : Str) :
    ls "<b:" ++ cap ++ ls ">" = '<' :: 'b' :: ':' :: (cap ++ ['>']) := by
  rw [(by decide : ls "<b:" = ['<', 'b', ':']), (by decide : ls ">" = ['>'])]
  simp

theorem bClose_decomp (cap : Str) :
    ls "</b:" ++ cap ++ ls ">" = '<' :: '/' :: 'b' :: ':' :: (cap ++ ['>']) := by
  rw [(by decide : ls "</b:" = ['<', '/', 'b', ':']), (by decide : ls ">" = ['>'])]
  simp

theorem bareOpen_decomp (tag : Str) :
    ls "<" ++ tag ++ ls ">" = '<' :: (tag ++ ['>']) := by
  rw [(by decide : ls "<" = ['<']), (by decide : ls ">" = ['>'])]
  simp

theorem bareClose_decomp (tag : Str) :
    ls "</" ++ tag ++ ls ">" = '<' :: '/' :: (tag ++ ['>']) := by
  rw [(by decide : ls "</" = ['<', '/']), (by decide : ls ">" = ['>'])]
  simp

theorem bOpen_ne_nil (cap : Str) : ls "<b:" ++ cap ++ ls ">" ≠ [] := by
  rw [bOpen_decomp]; simp

/-- The `b:`-prefixed open pattern cannot match at a bare open tag made
of letters: after `<` it requires `b` then `:`, but the tag is all
letters followed by `>`. -/
theorem leadMatch_bOpen_tag {cap tag : Str} (hne : tag ≠ [])
    (ha : ∀ c ∈ tag, asciiAlpha c = true) (rest : Str) :
    leadMatch true (ls "<b:" ++ cap ++ ls ">") ('<' :: (tag ++ ('>' :: rest))) = false := by
  rw [bOpen_decomp]
  cases tag with
  | nil => exact absurd rfl hne
  | cons t0 ts =>
    rw [List.cons_append]
    cases hb : charCI true 'b' t0 with
    | false => simp [leadMatch, hb]
    | true =>
      cases ts with
      | nil => simp [leadMatch, hb, (by decide : charCI true ':' '>' = false)]
      | cons t1 ts' =>
        simp [leadMatch, hb, charCI_colon_alpha (ha t1 (by simp))]

/-- The `b:`-prefixed open pattern cannot match at a close tag: after `<`
it requires `b`, not `/`. -/
theorem leadMatch_bOpen_slash (cap rest : Str) :
    leadMatch true (ls "<b:" ++ cap ++ ls ">") ('<' :: ('/' :: rest)) = false := by
  rw [bOpen_decomp]
  simp [leadMatch, (by decide : charCI true 'b' '/' = false)]

theorem tagDoc_bare_decomp (tag inner tail : Str) :
    tagDoc [] tag inner ++ tail
      = '<' :: (tag ++ ('>' :: (inner ++ ('<' :: ('/' :: (tag ++ ('>' :: tail))))))) := by
  rw [tagDoc,
    (by decide : ls "<" = ['<']), (by decide : ls ">" = ['>']),
    (by decide : ls "</" = ['<', '/'])]
  simp

/-- The `b:`-prefixed pattern matches nowhere in a bare-tagged document
built from an all-letter tag, a `<`-free inner text, and a tail it
already matches nowhere in. -/
theorem fe_bOpen_bareDoc {cap tag : Str} (hne : tag ≠ [])
    (ha : ∀ c ∈ tag, asciiAlpha c = true) {inner : Str} (hin : ∀ c ∈ inner, c ≠ '<')
    {tail : Str} (htail : failsEverywhere (ls "<b:" ++ cap ++ ls ">") tail) :
    failsEverywhere (ls "<b:" ++ cap ++ ls ">") (tagDoc [] tag inner ++ tail) := by
  rw [tagDoc_bare_decomp]
  have hq := bOpen_decomp cap
  refine fe_cons (leadMatch_bOpen_tag hne ha _) ?_
  refine fe_append_nonlt hq (fun c hc => asciiAlpha_ne_lt (ha c hc)) ?_
  refine fe_cons ?_ ?_
  · rw [hq]; exact leadMatch_head_false (charCI_lt_false (by decide))
  refine fe_append_nonlt hq hin ?_
  refine fe_cons (leadMatch_bOpen_slash cap _) ?_
  refine fe_cons ?_ ?_
  · rw [hq]; exact leadMatch_head_false (charCI_lt_false (by decide))
  refine fe_append_nonlt hq (fun c hc => asciiAlpha_ne_lt (ha c hc)) ?_
  refine fe_cons ?_ htail
  rw [hq]; exact leadMatch_head_false (charCI_lt_false (by decide))

/-! ## Extraction on well-formed tag documents -/

theorem lcn_length {a b : Str} (h : lcn a = lcn b) : a.length = b.length := by
  have := congrArg List.length h
  simpa [lcn] using this

/-- Extraction over a bare-tagged document (with any all-letter casing
variant `tag` of the capitalized field name) followed by a tail free of
`b:`-matches: the `b:` form fails everywhere, the bare form matches the
leading tag, and the result is the trimmed inner text unless the raw
inner text is empty. -/
theorem extract_on_bareDoc {f tag inner : Str} (tail : Str)
    (htagne : tag ≠ [])
    (htaga : ∀ c ∈ tag, asciiAlpha c = true)
    (hlcn : lcn tag = lcn (capitalize f))
    (hin : ∀ c ∈ inner, c ≠ '<')
    (hfeTail : failsEverywhere (ls "<b:" ++ capitalize f ++ ls ">") tail) :
    extractFieldValue (tagDoc [] tag inner ++ tail) f
      = (if inner = [] then none else some (trimStr inner)) := by
  have hmap : tag.map (fun c => lowerCode c.toNat)
      = (capitalize f).map (fun c => lowerCode c.toNat) := hlcn
  have h1 : scanPos (simpleTagAt true false (ls "<b:" ++ capitalize f ++ ls ">")
      (ls "</b:" ++ capitalize f ++ ls ">")) (tagDoc [] tag inner ++ tail) = none :=
    scanPos_simple_none (fe_bOpen_bareDoc htagne htaga hin hfeTail)
  have hd : tagDoc [] tag inner ++ tail
      = ('<' :: (tag ++ ['>']))
        ++ (inner ++ ('<' :: (('/' :: (tag ++ ['>'])) ++ tail))) := by
    rw [tagDoc_bare_decomp]; simp
  have h2 : scanPos (simpleTagAt true false (ls "<" ++ capitalize f ++ ls ">")
      (ls "</" ++ capitalize f ++ ls ">")) (tagDoc [] tag inner ++ tail) = some inner := by
    apply scanPos_of_some
    rw [hd]
    have hlo : leadMatch true (ls "<" ++ capitalize f ++ ls ">")
        (('<' :: (tag ++ ['>']))
          ++ (inner ++ ('<' :: (('/' :: (tag ++ ['>'])) ++ tail)))) = true := by
      rw [bareOpen_decomp]
      apply leadMatch_of_lcn
      simp [lcn, hmap]
    have hlen : (ls "<" ++ capitalize f ++ ls ">").length
        = ('<' :: (tag ++ ['>'])).length := by
      rw [bareOpen_decomp]
      simp [lcn_length hlcn]
    have hlc : leadMatch true (ls "</" ++ capitalize f ++ ls ">")
        ('<' :: (('/' :: (tag ++ ['>'])) ++ tail)) = true := by
      rw [bareClose_decomp]
      have hsh : ('<' : Char) :: (('/' :: (tag ++ ['>'])) ++ tail)
          = ('<' :: '/' :: (tag ++ ['>'])) ++ tail := by simp
      rw [hsh]
      apply leadMatch_of_lcn
      simp [lcn, hmap]
    exact simpleTagAt_hit false inner tail hlo hlen hin hlc
  simp only [extractFieldValue, h1, h2]
  cases inner <;> simp

theorem tagDoc_b_decomp (cap inner : Str) :
    tagDoc (ls "b:") cap inner
      = (ls "<b:" ++ cap ++ ls ">")
        ++ (inner ++ ('<' :: (('/' :: 'b' :: ':' :: (cap ++ ['>'])) ++ []))) := by
  rw [tagDoc, bOpen_decomp,
    (by decide : ls "<" = ['<']), (by decide : ls "b:" = ['b', ':']),
    (by decide : ls ">" = ['>']), (by decide : ls "</" = ['<', '/'])]
  simp

/-- Extraction over a `b:`-prefixed document: the `b:` form matches the
leading tag directly. -/
theorem extract_on_bDoc {f inner : Str} (hin : ∀ c ∈ inner, c ≠ '<') :
    extractFieldValue (tagDoc (ls "b:") (capitalize f) inner) f
      = (if inner = [] then none else some (trimStr inner)) := by
  have h1 : scanPos (simpleTagAt true false (ls "<b:" ++ capitalize f ++ ls ">")
      (ls "</b:" ++ capitalize f ++ ls ">")) (tagDoc (ls "b:") (capitalize f) inner)
      = some inner := by
    apply scanPos_of_some
    rw [tagDoc_b_decomp]
    have hlo := leadMatch_refl_append true (ls "<b:" ++ capitalize f ++ ls ">")
      (inner ++ ('<' :: (('/' :: 'b' :: ':' :: (capitalize f ++ ['>'])) ++ [])))
    have hlc : leadMatch true (ls "</b:" ++ capitalize f ++ ls ">")
        ('<' :: (('/' :: 'b' :: ':' :: (capitalize f ++ ['>'])) ++ [])) = true := by
      have hsh : ('<' : Char) :: (('/' :: 'b' :: ':' :: (capitalize f ++ ['>'])) ++ [])
          = (ls "</b:" ++ capitalize f ++ ls ">") ++ [] := by
        rw [bClose_decomp]; simp
      rw [hsh]
      exact leadMatch_refl_append true _ _
    exact simpleTagAt_hit false inner [] hlo rfl hin hlc
  simp only [extractFieldValue, h1]
  cases inner <;> simp

/-! ## Field-extraction claims -/

/-- Counterexample to claim C6 as stated: the extractor does not try an
arbitrary namespace prefix, only the fixed prefix `b:`.  Two documents
identical except for namespace prefixing (prefix `c:` versus no prefix)
yield different extraction results. -/
theorem extractField_arbitrary_prefix_counterexample :
    extractFieldValue (ls "<c:Status>A</c:Status>") (ls "status") = none
    ∧ extractFieldValue (ls "<Status>A</Status>") (ls "status") = some (ls "A") :=
  ⟨by decide, by decide⟩

/-- Claim C6 (amended): field extraction matches the element
case-insensitively, trying first the FIXED namespace prefix `b:` and
then the bare form, and returns the trimmed inner text of the first
matched occurrence; two documents identical except for `b:`-prefixing of
their tags yield identical results.  Formally, over any field name whose
capitalized form is a non-empty ASCII-letter word, any casing variant
`tag` of it, and any `<`-free inner texts: the `b:`-prefixed and bare
single-tag documents extract identically; a bare document with any
casing of the tag extracts the trimmed inner text (absent when the raw
inner text is empty); and with two occurrences only the first is
used. -/
theorem extractField_b_prefix_ci_first_trimmed (f tag inner inner2 : Str)
    (hcapne : capitalize f ≠ []) (hcapa : ∀ c ∈ capitalize f, asciiAlpha c = true)
    (htaga : ∀ c ∈ tag, asciiAlpha c = true) (hlcn : lcn tag = lcn (capitalize f))
    (hin : ∀ c ∈ inner, c ≠ '<') (hin2 : ∀ c ∈ inner2, c ≠ '<') :
    extractFieldValue (tagDoc (ls "b:") (capitalize f) inner) f
      = extractFieldValue (tagDoc [] (capitalize f) inner) f
    ∧ extractFieldValue (tagDoc [] tag inner) f
      = (if inner = [] then none else some (trimStr inner))
    ∧ extractFieldValue (tagDoc [] tag inner ++ tagDoc [] tag inner2) f
      = (if inner = [] then none else some (trimStr inner)) := by
  have htagne : tag ≠ [] := by
    intro he
    subst he
    cases hc : capitalize f with
    | nil => exact hcapne hc
    | cons a l => rw [hc] at hlcn; simp [lcn] at hlcn
  have h2 : extractFieldValue (tagDoc [] tag inner) f
      = (if inner = [] then none else some (trimStr inner)) := by
    have := extract_on_bareDoc [] htagne htaga hlcn hin
      (fe_nil (bOpen_ne_nil (capitalize f)))
    rwa [List.append_nil] at this
  have hcap2 : extractFieldValue (tagDoc [] (capitalize f) inner) f
      = (if inner = [] then none else some (trimStr inner)) := by
    have := extract_on_bareDoc [] hcapne hcapa rfl hin
      (fe_nil (bOpen_ne_nil (capitalize f)))
    rwa [List.append_nil] at this
  refine ⟨?_, h2, ?_⟩
  · rw [extract_on_bDoc hin, hcap2]
  · refine extract_on_bareDoc (tagDoc [] tag inner2) htagne htaga hlcn hin ?_
    have := fe_bOpen_bareDoc htagne htaga hin2
      (fe_nil (bOpen_ne_nil (capitalize f)))
    rwa [List.append_nil] at this

/-- Witness for C6: field "status", tag written "STATUS", inner text
" A " with a second occurrence "B": every form extracts the trimmed
"A" from the first occurrence. -/
theorem extractField_b_prefix_ci_first_trimmed_witness :
    (capitalize (ls "status") ≠ []
     ∧ (∀ c ∈ capitalize (ls "status"), asciiAlpha c = true)
     ∧ (∀ c ∈ ls "STATUS", asciiAlpha c = true)
     ∧ lcn (ls "STATUS") = lcn (capitalize (ls "status"))
     ∧ (∀ c ∈ ls " A ", c ≠ '<') ∧ (∀ c ∈ ls "B", c ≠ '<'))
    ∧ (extractFieldValue (tagDoc (ls "b:") (capitalize (ls "status")) (ls " A ")) (ls "status")
        = extractFieldValue (tagDoc [] (capitalize (ls "status")) (ls " A ")) (ls "status")
      ∧ extractFieldValue (tagDoc [] (ls "STATUS") (ls " A ")) (ls "status")
        = (if (ls " A ") = [] then none else some (trimStr (ls " A ")))
      ∧ extractFieldValue (tagDoc [] (ls "STATUS") (ls " A ") ++ tagDoc [] (ls "STATUS") (ls "B"))
          (ls "status")
        = (if (ls " A ") = [] then none else some (trimStr (ls " A "))))
    ∧ extractFieldValue (tagDoc [] (ls "STATUS") (ls " A ")) (ls "status") = some (ls "A") :=
  ⟨⟨by decide, by decide, by decide, by decide, by decide, by decide⟩,
   extractField_b_prefix_ci_first_trimmed (ls "status") (ls "STATUS") (ls " A ") (ls "B")
     (by decide) (by decide) (by decide) (by decide) (by decide) (by decide),
   by decide⟩

/-! ## Field-extraction claims, continued -/

/-- Claim C7: field extraction is a total function (it is defined by
structural scans, with no exceptional exit), and on a block containing
no complete open tag of the field — under either the `b:`-prefixed or
the bare form, in any letter case — it returns the absent value; in
particular malformed markup yields absent for every field of the fixed
pattern list. -/
theorem missing_field_extracts_absent (data fieldName : Str)
    (hmem : fieldName ∈ patternNames)
    (hb : occursCI (ls "<b:" ++ capitalize fieldName ++ ls ">") data = false)
    (hbare : occursCI (ls "<" ++ capitalize fieldName ++ ls ">") data = false) :
    extractFieldValue data fieldName = none := by
  have h1 : scanPos (simpleTagAt true false (ls "<b:" ++ capitalize fieldName ++ ls ">")
      (ls "</b:" ++ capitalize fieldName ++ ls ">")) data = none :=
    scanPos_simple_none (fe_of_occursCI_false hb)
  have h2 : scanPos (simpleTagAt true false (ls "<" ++ capitalize fieldName ++ ls ">")
      (ls "</" ++ capitalize fieldName ++ ls ">")) data = none :=
    scanPos_simple_none (fe_of_occursCI_false hbare)
  simp only [extractFieldValue, h1, h2]

/-- Witness for C7: malformed markup contains no complete
`employmentStatus` tag and extraction returns absent without failing. -/
theorem missing_field_extracts_absent_witness :
    (ls "employmentStatus" ∈ patternNames
     ∧ occursCI (ls "<b:" ++ capitalize (ls "employmentStatus") ++ ls ">") malformedDoc = false
     ∧ occursCI (ls "<" ++ capitalize (ls "employmentStatus") ++ ls ">") malformedDoc = false)
    ∧ extractFieldValue malformedDoc (ls "employmentStatus") = none :=
  ⟨⟨by decide, by decide, by decide⟩,
   missing_field_extracts_absent malformedDoc (ls "employmentStatus")
     (by decide) (by decide) (by decide)⟩

set_option maxRecDepth 20000 in
/-- Counterexample to claim C8 as stated: the parsers do not require a
verified `Success = "true"` flag before producing a record — when no
`Success` element is present at all, parsing proceeds and produces the
record anyway (the code only rejects a flag that is present and not
"true", worker.js:527, 685). -/
theorem parse_without_success_flag_counterexample :
    occursCI (ls "<b:Success>") empNoSuccessDoc = false
    ∧ occursCI (ls "<Success>") empNoSuccessDoc = false
    ∧ successFlagOf ((blockPrefOrAttr "GetEmploymentInformationByEmployeeIdentifierResult"
        empNoSuccessDoc).getD []) = none
    ∧ (parseEmploymentCore empNoSuccessDoc).map Prod.snd
        = some [(ls "employmentStatus", ls "A")] :=
  ⟨by decide, by decide, by decide, by decide⟩

/-- Claim C8 (amended): whenever the result block's `Success` flag is
present with a value other than the sentinel "true", both parsers return
absent rather than a record; a missing flag is treated as success and
parsing proceeds. -/
theorem success_flag_not_true_yields_absent :
    (∀ (xml rb v : Str),
        blockPrefOrAttr "GetEmploymentInformationByEmployeeIdentifierResult" xml = some rb →
        successFlagOf rb = some v → v ≠ ls "true" →
        parseEmploymentCore xml = none)
    ∧ (∀ (xml em rb v : Str),
        blockPrefOrAttr "GetSsoUserByClientUserNameResult" xml = some rb →
        successFlagOf rb = some v → v ≠ ls "true" →
        parseSingleUserFromXML xml em = none) := by
  constructor
  · intro xml rb v hbk hs hv
    unfold parseEmploymentCore
    simp only [hbk, hs]
    rw [if_neg hv]
  · intro xml em rb v hbk hs hv
    unfold parseSingleUserFromXML
    simp only [hbk, hs]
    rw [if_neg hv]

/-- Witness for C8: responses with `Success = false` parse to absent in
both parsers. -/
theorem success_flag_not_true_yields_absent_witness :
    (blockPrefOrAttr "GetEmploymentInformationByEmployeeIdentifierResult" empFalseDoc
        = some (ls "<Success>false</Success>")
     ∧ successFlagOf (ls "<Success>false</Success>") = some (ls "false")
     ∧ ls "false" ≠ ls "true"
     ∧ parseEmploymentCore empFalseDoc = none)
    ∧ (blockPrefOrAttr "GetSsoUserByClientUserNameResult" ssoFalseDoc
        = some (ls "<Success>false</Success>")
     ∧ parseSingleUserFromXML ssoFalseDoc (ls "e@x") = none) :=
  ⟨⟨by decide, by decide, by decide,
    success_flag_not_true_yields_absent.1 empFalseDoc (ls "<Success>false</Success>")
      (ls "false") (by decide) (by decide) (by decide)⟩,
   ⟨by decide,
    success_flag_not_true_yields_absent.2 ssoFalseDoc (ls "e@x")
      (ls "<Success>false</Success>") (ls "false") (by decide) (by decide) (by decide)⟩⟩

/-! ## Claims about the reconciliation step -/

/-- Claim C1: on any candidate list with at least one active record, the
reconciliation step selects the LAST active record in original order
(the first match over the reversed list), and books
`totalRecordCount` as the number of candidates and `activeRecordCount`
as the number of active candidates. -/
theorem reconciler_selects_last_active (rs : List URecord)
    (h : ∃ r ∈ rs, isActive r) :
    primaryRecord rs = rs.reverse.find? isActive
    ∧ (primaryRecord rs).isSome = true
    ∧ (recordsInfoOf rs).totalRecordCount = rs.length
    ∧ (recordsInfoOf rs).activeRecordCount = rs.countP isActive := by
  have hmain : primaryRecord rs = rs.reverse.find? isActive := by
    rw [primaryRecord, activeRecords, List.getLast?_eq_head?_reverse,
      ← List.filter_reverse, List.filter_head?]
  refine ⟨hmain, ?_, rfl, ?_⟩
  · rw [hmain]
    exact List.find?_isSome.mpr (by
      obtain ⟨r, hr, ha⟩ := h
      exact ⟨r, List.mem_reverse.mpr hr, ha⟩)
  · rw [recordsInfoOf, activeRecords]
    exact (List.countP_eq_length_filter isActive rs).symm

/-- Witness for C1, on the spec's scenario: the canonical record is C
(the last active one), with 2 active among 4 total. -/
theorem reconciler_selects_last_active_witness :
    (∃ r ∈ demoRecords, isActive r)
    ∧ (primaryRecord demoRecords = demoRecords.reverse.find? isActive
       ∧ (primaryRecord demoRecords).isSome = true
       ∧ (recordsInfoOf demoRecords).totalRecordCount = demoRecords.length
       ∧ (recordsInfoOf demoRecords).activeRecordCount = demoRecords.countP isActive)
    ∧ primaryRecord demoRecords = some (sampleRec "C" "C3" "A")
    ∧ (recordsInfoOf demoRecords).activeRecordCount = 2
    ∧ (recordsInfoOf demoRecords).totalRecordCount = 4 :=
  ⟨by decide, reconciler_selects_last_active demoRecords (by decide),
   by decide, by decide, by decide⟩

/-- Claim C3: on a non-empty candidate list with no active record, the
worker answers 404 with `success:false`, the
"No active employee records found" message, and `totalRecords` equal to
the candidate count. -/
theorem no_active_records_yields_404 (rs : List URecord) (em : Str) (dbg : Bool)
    (hne : rs ≠ []) (hall : ∀ r ∈ rs, isActive r = false) :
    respondWithRecords rs em dbg =
      { status := 404, success := some false,
        error := some (ls "No active employee records found"),
        totalRecords := some rs.length, email := some em,
        details := some (ls "All employee records found are terminated or inactive") } := by
  have hfil : activeRecords rs = [] :=
    List.filter_eq_nil_iff.mpr (by simpa using hall)
  rw [respondWithRecords, primaryRecord, hfil]
  rfl

/-- Witness for C3, on the spec's scenario of two terminated identities:
status 404 and `totalRecords = 2`. -/
theorem no_active_records_yields_404_witness :
    (demoInactive ≠ [] ∧ ∀ r ∈ demoInactive, isActive r = false)
    ∧ respondWithRecords demoInactive (ls "user@example.com") false =
      { status := 404, success := some false,
        error := some (ls "No active employee records found"),
        totalRecords := some 2, email := some (ls "user@example.com"),
        details := some (ls "All employee records found are terminated or inactive") } :=
  ⟨⟨by decide, by decide⟩,
   no_active_records_yields_404 demoInactive (ls "user@example.com") false
     (by decide) (by decide)⟩

/-- Claim C5: a record without employment detail is never classified
active, and the canonical record always comes from the active partition,
so it always carries employment detail with status "A". -/
theorem record_without_details_never_active :
    (∀ r : URecord, r.employmentDetails = none → isActive r = false)
    ∧ (∀ (rs : List URecord) (r : URecord), primaryRecord rs = some r →
        ∃ d, r.employmentDetails = some d
          ∧ d.field (ls "employmentStatus") = some (ls "A")) := by
  constructor
  · intro r h
    rw [isActive, h]
  · intro rs r hp
    exact details_of_active (isActive_of_primary hp)

/-- Witness for C5: the detail-less record is inactive, and the canonical
record of the scenario list carries detail with status "A". -/
theorem record_without_details_never_active_witness :
    (plainRec.employmentDetails = none ∧ isActive plainRec = false)
    ∧ (primaryRecord demoRecords = some (sampleRec "C" "C3" "A")
       ∧ ∃ d, (sampleRec "C" "C3" "A").employmentDetails = some d
           ∧ d.field (ls "employmentStatus") = some (ls "A")) :=
  ⟨⟨by decide, record_without_details_never_active.1 plainRec (by decide)⟩,
   ⟨by decide,
    record_without_details_never_active.2 demoRecords (sampleRec "C" "C3" "A") (by decide)⟩⟩

/-! ## Handler-level claims -/

/-- Claim C4: when the email resolves to zero identity records, the
handler answers 404 with `success:false` and "User not found", and the
reconciler cannot fabricate a canonical record from an empty candidate
list. -/
theorem zero_records_user_not_found (e : Env) (req : Req) (w : World) (em : Str)
    (hk : apiKeyValid e req = true) (he : req.email = some em) (hne : em ≠ [])
    (hv : firstMissingVar e = none) (ha : (authenticateUKG w).isSome = true)
    (hu : findUserCore w em = none) :
    fetchHandler e req w =
      { status := 404, success := some false,
        error := some (ls "User not found"), email := some em }
    ∧ primaryRecord [] = none := by
  obtain ⟨t, ht⟩ := Option.isSome_iff_exists.mp ha
  have hemp : em.isEmpty = false := List.isEmpty_eq_false.mpr hne
  refine ⟨?_, rfl⟩
  rw [fetchHandler, hk, he]
  simp only [Bool.not_true, Bool.false_eq_true, if_false, hemp, hv, ht,
    findUserByEmail, hu, Option.map_none']

/-- Witness for C4: a world whose SSO lookup parses to nothing yields the
404 "User not found" response. -/
theorem zero_records_user_not_found_witness :
    (apiKeyValid demoEnv demoReq = true
     ∧ demoReq.email = some (ls "j@x.com") ∧ (ls "j@x.com") ≠ []
     ∧ firstMissingVar demoEnv = none
     ∧ (authenticateUKG demoWorldNotFound).isSome = true
     ∧ findUserCore demoWorldNotFound (ls "j@x.com") = none)
    ∧ fetchHandler demoEnv demoReq demoWorldNotFound =
      { status := 404, success := some false,
        error := some (ls "User not found"), email := some (ls "j@x.com") }
    ∧ primaryRecord [] = none :=
  ⟨⟨by decide, by decide, by decide, by decide, by decide, by decide⟩,
   zero_records_user_not_found demoEnv demoReq demoWorldNotFound (ls "j@x.com")
     (by decide) (by decide) (by decide) (by decide) (by decide) (by decide)⟩

/-- Claim C9: when a required environment variable is missing (and the
request itself passed the API-key and email checks, which come first in
the code), the handler answers 500 naming that variable, and the
response is the same whatever the upstream backend would have answered —
no outbound call can influence it. -/
theorem missing_config_500_before_any_call (e : Env) (req : Req) (v em : Str)
    (hk : apiKeyValid e req = true) (he : req.email = some em) (hne : em ≠ [])
    (hv : firstMissingVar e = some v) :
    ∀ w : World, fetchHandler e req w =
      { status := 500, error := some (ls "Missing environment variable: " ++ v) } := by
  intro w
  have hemp : em.isEmpty = false := List.isEmpty_eq_false.mpr hne
  rw [fetchHandler, hk, he]
  simp only [Bool.not_true, Bool.false_eq_true, if_false, hemp, hv]

/-- Witness for C9: with `UKG_BASE_URL` unset the handler answers the
same 500 body both in a world where the backend would succeed and in one
where every call would fail. -/
theorem missing_config_500_before_any_call_witness :
    (apiKeyValid demoEnvNoBase demoReq = true
     ∧ demoReq.email = some (ls "j@x.com") ∧ (ls "j@x.com") ≠ []
     ∧ firstMissingVar demoEnvNoBase = some (ls "UKG_BASE_URL"))
    ∧ fetchHandler demoEnvNoBase demoReq demoWorld =
      { status := 500, error := some (ls "Missing environment variable: UKG_BASE_URL") }
    ∧ fetchHandler demoEnvNoBase demoReq
        { login := .netErr, sso := .netErr, employment := fun _ _ => .netErr } =
      { status := 500, error := some (ls "Missing environment variable: UKG_BASE_URL") } :=
  ⟨⟨by decide, by decide, by decide, by decide⟩,
   missing_config_500_before_any_call demoEnvNoBase demoReq (ls "UKG_BASE_URL") (ls "j@x.com")
     (by decide) (by decide) (by decide) (by decide) demoWorld,
   missing_config_500_before_any_call demoEnvNoBase demoReq (ls "UKG_BASE_URL") (ls "j@x.com")
     (by decide) (by decide) (by decide) (by decide)
     { login := .netErr, sso := .netErr, employment := fun _ _ => .netErr }⟩

/-- A 200 from the record-processing block carries the literal "ACTIVE"
employment status: the canonical record comes from the active partition,
so it always has employment detail and the
"Active (assumed - no employment details available)" branch cannot
run. -/
theorem respond_200_has_active (rs : List URecord) (em : Str) (dbg : Bool)
    (h : (respondWithRecords rs em dbg).status = 200) :
    (respondWithRecords rs em dbg).employmentStatus = some (ls "ACTIVE") := by
  cases hp : primaryRecord rs with
  | none => simp [respondWithRecords, hp] at h
  | some r =>
    obtain ⟨d, hd, _⟩ := details_of_active (isActive_of_primary hp)
    simp only [respondWithRecords, hp, hd]
    cases dbg <;> rfl

/-- Claim C10: every 200 response reports `employmentStatus: "ACTIVE"`;
the assumed-active branch of the response builder is unreachable. -/
theorem success_response_always_active (e : Env) (req : Req) (w : World)
    (h : (fetchHandler e req w).status = 200) :
    (fetchHandler e req w).employmentStatus = some (ls "ACTIVE") := by
  rw [fetchHandler] at h ⊢
  cases hk : apiKeyValid e req with
  | false => simp [hk] at h
  | true =>
    simp only [hk, Bool.not_true, Bool.false_eq_true, if_false] at h ⊢
    cases he : req.email with
    | none => simp [he] at h
    | some em =>
      simp only [he] at h ⊢
      cases hemp : em.isEmpty with
      | true => simp [hemp] at h
      | false =>
        simp only [hemp, Bool.false_eq_true, if_false] at h ⊢
        cases hv : firstMissingVar e with
        | some v => simp [hv] at h
        | none =>
          simp only [hv] at h ⊢
          cases ha : authenticateUKG w with
          | none => simp [ha] at h
          | some t =>
            simp only [ha] at h ⊢
            cases hu : findUserByEmail w em req.debug with
            | none => simp [hu] at h
            | some ur =>
              simp only [hu] at h ⊢
              exact respond_200_has_active _ _ _ h

set_option maxRecDepth 10000 in
/-- Witness for C10: a fully successful run returns 200 and reports
"ACTIVE". -/
theorem success_response_always_active_witness :
    (fetchHandler demoEnv demoReq demoWorld).status = 200
    ∧ (fetchHandler demoEnv demoReq demoWorld).employmentStatus = some (ls "ACTIVE") :=
  ⟨by decide, success_response_always_active demoEnv demoReq demoWorld (by decide)⟩

/-! ## Debug-mode invariance -/

/-- The classification of a record as active does not depend on the
debug flag of the employment lookup: the debug placeholders for failed
lookups carry no `employmentStatus` property, and a successful parse
extracts the same field map in both modes. -/
theorem isActive_debug_invariant (w : World) (u : SsoUser) (raw raw' : Option Str) :
    isActive { user := u, rawSSOResponse := raw,
               employmentDetails :=
                 getEmploymentInformationByEmployeeIdentifier w u.companyCode u.employeeNumber true }
    = isActive { user := u, rawSSOResponse := raw',
                 employmentDetails :=
                   getEmploymentInformationByEmployeeIdentifier w u.companyCode u.employeeNumber false } := by
  unfold getEmploymentInformationByEmployeeIdentifier
  cases hw : w.employment u.companyCode u.employeeNumber with
  | netErr => rfl
  | resp ok body =>
    cases ok with
    | false => rfl
    | true =>
      unfold parseEmploymentInformationDetailsFromXML
      dsimp only
      cases hp : parseEmploymentCore body with
      | none => rfl
      | some pr => rfl

/-- The HTTP status of the record-processing block is 200 exactly when a
canonical record was selected, 404 otherwise. -/
theorem respond_status_eq (rs : List URecord) (em : Str) (dbg : Bool) :
    (respondWithRecords rs em dbg).status =
      if (primaryRecord rs).isSome then 200 else 404 := by
  cases hp : primaryRecord rs with
  | none => simp [respondWithRecords, hp]
  | some r =>
    simp only [respondWithRecords, hp, Option.isSome_some, if_true]
    cases r.employmentDetails <;> cases dbg <;> rfl

/-- The `success` field of the record-processing block mirrors whether a
canonical record was selected. -/
theorem respond_success_eq (rs : List URecord) (em : Str) (dbg : Bool) :
    (respondWithRecords rs em dbg).success = some (primaryRecord rs).isSome := by
  cases hp : primaryRecord rs with
  | none => simp [respondWithRecords, hp]
  | some r =>
    simp only [respondWithRecords, hp, Option.isSome_some]
    cases r.employmentDetails <;> cases dbg <;> rfl

/-- On a one-record candidate list the canonical record exists exactly
when the record is active. -/
theorem primaryRecord_singleton (r : URecord) :
    primaryRecord [r] = if isActive r then some r else none := by
  cases h : isActive r <;>
    simp [primaryRecord, activeRecords, List.filter_cons, h]

/-- Claim C2: two requests identical except for the debug flag receive
the same HTTP status and the same `success` value; debug mode only adds
fields. -/
theorem debug_mode_preserves_success_and_status (e : Env) (k em : Option Str) (w : World) :
    ((fetchHandler e ⟨k, em, true⟩ w).status = (fetchHandler e ⟨k, em, false⟩ w).status)
    ∧ ((fetchHandler e ⟨k, em, true⟩ w).success = (fetchHandler e ⟨k, em, false⟩ w).success) := by
  rw [fetchHandler, fetchHandler]
  dsimp only
  cases hk : apiKeyValid e ⟨k, em, false⟩ with
  | false =>
    have hk' : apiKeyValid e ⟨k, em, true⟩ = false := hk
    simp [hk, hk']
  | true =>
    have hk' : apiKeyValid e ⟨k, em, true⟩ = true := hk
    simp only [hk, hk', Bool.not_true, Bool.false_eq_true, if_false]
    cases em with
    | none => exact ⟨rfl, rfl⟩
    | some emv =>
      dsimp only
      cases hemp : emv.isEmpty with
      | true => simp [hemp]
      | false =>
        simp only [hemp, Bool.false_eq_true, if_false]
        cases hv : firstMissingVar e with
        | some v => simp [hv]
        | none =>
          simp only [hv]
          cases ha : authenticateUKG w with
          | none => simp [ha]
          | some t =>
            simp only [ha]
            unfold findUserByEmail
            cases hu : findUserCore w emv with
            | none => simp
            | some p =>
              obtain ⟨u, body⟩ := p
              simp only [Option.map_some', if_true, if_false,
                show (if (true : Bool) = true then some body else none) = some body from rfl,
                show (if (false : Bool) = true then some body else none) =
                  (none : Option Str) from rfl]
              have hact := isActive_debug_invariant w u (some body) none
              constructor
              · rw [respond_status_eq, respond_status_eq,
                  primaryRecord_singleton, primaryRecord_singleton, hact]
                cases isActive
                    { user := u, rawSSOResponse := none,
                      employmentDetails :=
                        getEmploymentInformationByEmployeeIdentifier
                          w u.companyCode u.employeeNumber false } <;> simp
              · rw [respond_success_eq, respond_success_eq,
                  primaryRecord_singleton, primaryRecord_singleton, hact]
                cases isActive
                    { user := u, rawSSOResponse := none,
                      employmentDetails :=
                        getEmploymentInformationByEmployeeIdentifier
                          w u.companyCode u.employeeNumber false } <;> simp

end UKG
